import Mathlib

/-!
Shallow embedding of `src/main.rs` of the rust-todo repository: a terminal
task manager built around a `MapTaskRepository` (a `HashMap<Uuid, Task>`
behind a `TaskRepository` trait), an action loop (`execute_action` driven by
`main`'s `while` loop), and JSON persistence (`load_tasks` / `save_tasks`).

Modelling choices:
* `Uuid::new_v4()` is modelled as a fresh-identifier supply: the repository
  carries a counter `next` and `add_task` hands out `next` and increments it.
  This captures the intended semantics that freshly generated v4 UUIDs are
  unique (the spec: "a unique identifier assigned by the store at insertion
  time ... never reused").
* `HashMap<Uuid, Task>` is modelled as an association list with unique keys;
  `insert` removes any existing binding for the key and prepends the new one,
  `remove` filters the key out, `get` is `find?`.  Iteration order of a
  `HashMap` is unspecified, so the particular order of the association list
  carries no meaning and no claim depends on it.
* Terminal I/O (prompts, colors, clearing) is modelled by an `Env` record
  holding the outcome of the prompts issued during one loop cycle, and the
  printed output of `list_tasks` is modelled as the list of tasks it prints.
* The persistence file is modelled at the parse-result level
  (`FileReadResult`): missing/unreadable, readable-but-malformed, or a parsed
  `Vec<Task>`; `serde_json` round-tripping of a `Vec<Task>` is the identity
  on the task list.
-/

namespace Todo

/-- Models `uuid::Uuid` (the store's key type). -/
abbrev Uuid := Nat

/-- Models `enum Priority { High, Medium, Low }`. -/
inductive Priority where
  | High
  | Medium
  | Low
deriving DecidableEq

/-- The derived `Ord` on the Rust `Priority` enum orders by declaration
order: `High < Medium < Low`.  `priorityOrder` is that rank. -/
def priorityOrder : Priority → Nat
  | Priority.High => 0
  | Priority.Medium => 1
  | Priority.Low => 2

/-- Models `struct Task { name: String, priority: Priority }`. -/
structure Task where
  name : String
  priority : Priority
deriving DecidableEq

/-- Models `struct KeyedTask(Uuid, Task)`; field `id` is the Rust `.0`,
field `task` is the Rust `.1`. -/
structure KeyedTask where
  id : Uuid
  task : Task
deriving DecidableEq

/-- Models `struct MapTaskRepository { tm: RefCell<HashMap<Uuid, Task>> }`,
plus the fresh-identifier supply `next` standing in for `Uuid::new_v4()`. -/
structure MapTaskRepository where
  tm : List (Uuid × Task)
  next : Uuid
deriving DecidableEq

/-- Models `MapTaskRepository::new()`. -/
def MapTaskRepository.new : MapTaskRepository := ⟨[], 0⟩

/-- Models `fn add_task(&self, t: Task) -> Uuid`: inserts `t` under a fresh
uuid (`HashMap::insert`; any stale binding for that key is replaced) and
returns the uuid.  Since the model's state is explicit, the mutated
repository is returned alongside. -/
def add_task (tr : MapTaskRepository) (t : Task) : Uuid × MapTaskRepository :=
  (tr.next, ⟨(tr.next, t) :: tr.tm.filter (fun p => p.1 ≠ tr.next), tr.next + 1⟩)

/-- Models `fn get_task(&self, id: Uuid) -> Option<Task>`. -/
def get_task (tr : MapTaskRepository) (id : Uuid) : Option Task :=
  (tr.tm.find? (fun p => p.1 = id)).map (fun p => p.2)

/-- Models `fn ids(&self) -> Vec<Uuid>`. -/
def ids (tr : MapTaskRepository) : List Uuid :=
  tr.tm.map (fun p => p.1)

/-- Models `fn get_all(&self) -> Vec<KeyedTask>`. -/
def get_all (tr : MapTaskRepository) : List KeyedTask :=
  tr.tm.map (fun p => ⟨p.1, p.2⟩)

/-- Models `fn remove_task(&self, t: &KeyedTask)`: `HashMap::remove(&t.0)`. -/
def remove_task (tr : MapTaskRepository) (t : KeyedTask) : MapTaskRepository :=
  ⟨tr.tm.filter (fun p => p.1 ≠ t.id), tr.next⟩

example : (add_task MapTaskRepository.new ⟨"a", Priority.High⟩).1 = 0 := rfl
example : get_task (add_task MapTaskRepository.new ⟨"a", Priority.High⟩).2 0
    = some ⟨"a", Priority.High⟩ := rfl
example : get_task (remove_task (add_task MapTaskRepository.new ⟨"a", Priority.High⟩).2
    ⟨0, ⟨"b", Priority.Low⟩⟩) 0 = none := rfl

/-- Models `enum Action { Quit, List, Add, Remove, Unknown(String) }`. -/
inductive Action where
  | Quit
  | List
  | Add
  | Remove
  | Unknown (msg : String)
deriving DecidableEq

/-- The comparison `sort_by_key(|kt| kt.1.priority.clone())` sorts by: the
key of the first task is at most the key of the second. -/
def prioLe (a b : KeyedTask) : Prop :=
  priorityOrder a.task.priority ≤ priorityOrder b.task.priority

instance : DecidableRel prioLe := fun _ _ => Nat.decLe _ _

instance : IsTotal KeyedTask prioLe := ⟨fun _ _ => Nat.le_total _ _⟩

instance : IsTrans KeyedTask prioLe := ⟨fun _ _ _ => Nat.le_trans⟩

/-- Models `fn list_tasks(&dyn TaskRepository)`: fetches `get_all()`, sorts by
the `Priority` key (Rust's `sort_by_key` is a stable sort; so is
`List.insertionSort`), and prints each task.  The model returns the sorted
sequence that is printed. -/
def list_tasks (tr : MapTaskRepository) : List KeyedTask :=
  (get_all tr).insertionSort prioLe

/-- Outcomes of the interactive prompts issued during one cycle of the loop:
`addInput` is the result of the `Task:`/`Priority:` prompts in `add_task`
(the free function), `none` when either prompt failed; `selectIdx` is the
index the user picked in `select_task`'s menu over `get_all()`, `none` when
the selection prompt failed or was cancelled. -/
structure Env where
  addInput : Option (String × Priority)
  selectIdx : Option Nat

/-- Models `fn add_task(tr: &dyn TaskRepository)` (the prompting free
function): on successful prompts, inserts the entered task; on any prompt
failure, prints an error and performs no insertion. -/
def add_task_prompt (env : Env) (tr : MapTaskRepository) : MapTaskRepository :=
  match env.addInput with
  | some (n, p) => (add_task tr ⟨n, p⟩).2
  | none => tr

/-- Models `fn select_task(tr: &dyn TaskRepository) -> Option<KeyedTask>`:
the user picks one element of `tr.get_all()`, or the prompt fails
(`selected.ok()` is `None`). -/
def select_task (env : Env) (tr : MapTaskRepository) : Option KeyedTask :=
  env.selectIdx.bind (fun i => (get_all tr)[i]?)

/-- Models `struct State { should_continue, task, action }`. -/
structure State where
  should_continue : Bool
  task : Option KeyedTask
  action : Option Action
deriving DecidableEq

/-- Models `fn execute_action(a, tr, state) -> State`: first the deferred
pending `Remove` is committed (when both a pending action of kind `Remove`
and a pending task exist), then the freshly chosen action `a` is dispatched.
Store mutations are threaded explicitly, prompt outcomes come from `env`. -/
def execute_action (a : Action) (env : Env) (tr : MapTaskRepository)
    (state : State) : MapTaskRepository × State :=
  let should_continue := state.should_continue
  let committed : MapTaskRepository × Option KeyedTask × Option Action :=
    match state.action, state.task with
    | some Action.Remove, some t => (remove_task tr t, none, none)
    | a0, t0 => (tr, t0, a0)
  let tr1 := committed.1
  let task_opt := committed.2.1
  let action_opt := committed.2.2
  match a with
  | Action.Quit => (tr1, ⟨false, task_opt, action_opt⟩)
  | Action.List => (tr1, ⟨should_continue, task_opt, action_opt⟩)
  | Action.Add => (add_task_prompt env tr1, ⟨should_continue, task_opt, action_opt⟩)
  | Action.Remove => (tr1, ⟨should_continue, select_task env tr1, some Action.Remove⟩)
  | Action.Unknown _ => (tr1, ⟨should_continue, task_opt, action_opt⟩)

/-- Models `main`'s `while curr_state.should_continue` loop, driven by a
finite list of cycles; each cycle supplies the action chosen at the
`display_actions` prompt together with that cycle's prompt outcomes. -/
def run : List (Action × Env) → MapTaskRepository → State → MapTaskRepository × State
  | [], tr, s => (tr, s)
  | (a, env) :: rest, tr, s =>
    if s.should_continue then
      let r := execute_action a env tr s
      run rest r.1 r.2
    else (tr, s)

/-- The possible outcomes of `fs::read_to_string(PATH)` followed by
`serde_json::from_str::<Vec<Task>>`: the file is missing/unreadable, its
content is not a valid JSON task array, or it parses to a task vector.
`serde_json` round-tripping of a `Vec<Task>` is the identity, so the
parsed-vector case carries the task list itself. -/
inductive FileReadResult where
  | missing
  | malformed
  | contents (tasks : List Task)

/-- Adds the given tasks to the repository in order (`for t in tasks
{ tr.add_task(t.clone()); }`). -/
def addLoaded (tr : MapTaskRepository) (ts : List Task) : MapTaskRepository :=
  ts.foldl (fun tr t => (add_task tr t).2) tr

/-- The two fixed default tasks seeded by `load_tasks`. -/
def defaultTasks : List Task :=
  [⟨"Learn Rust", Priority.High⟩, ⟨"Learn NeoVim", Priority.Medium⟩]

/-- The tail of `load_tasks`: `if tr.get_all().is_empty() { ... add the two
default tasks ... }`. -/
def seedIfEmpty (tr : MapTaskRepository) : MapTaskRepository :=
  if (get_all tr).isEmpty then addLoaded tr defaultTasks else tr

/-- Models `fn load_tasks(tr) -> io::Result<()>`: a missing/unreadable file
is skipped (`if let Ok(contents) = ...`), malformed JSON propagates an error
via `?` before the seeding check runs, and a parsed vector is added to the
repository; afterwards an empty repository is seeded with the defaults. -/
def load_tasks (file : FileReadResult) (tr : MapTaskRepository) :
    Except String MapTaskRepository :=
  match file with
  | FileReadResult.missing => Except.ok (seedIfEmpty tr)
  | FileReadResult.malformed => Except.error "malformed JSON"
  | FileReadResult.contents ts => Except.ok (seedIfEmpty (addLoaded tr ts))

/-- Models `fn save_tasks(tr) -> io::Result<()>`: serializes
`get_all().map(|kt| kt.1.clone())`; the model returns the task vector that
is written to the file. -/
def save_tasks (tr : MapTaskRepository) : List Task :=
  (get_all tr).map (fun kt => kt.task)

/-- Models `fn main()`: create the repository, load (propagating a load
error with `?` before the loop), run the action loop from the initial state,
then save.  Returns the saved file content on success. -/
def main (file : FileReadResult) (inputs : List (Action × Env)) :
    Except String (List Task) :=
  match load_tasks file MapTaskRepository.new with
  | Except.error e => Except.error e
  | Except.ok tr =>
    let r := run inputs tr ⟨true, none, none⟩
    Except.ok (save_tasks r.1)

/-! ### Helper lemmas -/

/-- `find?` by key on a list whose `k`-keyed entries were filtered out. -/
lemma find?_filter_ne_key (l : List (Uuid × Task)) (k i : Uuid) :
    (l.filter (fun p => p.1 ≠ k)).find? (fun p => p.1 = i)
      = if i = k then none else l.find? (fun p => p.1 = i) := by
  induction l with
  | nil => simp
  | cons hd tl ih =>
    by_cases hk : hd.1 = k
    · rw [List.filter_cons_of_neg (by simp [hk]), ih]
      by_cases hik : i = k
      · simp [hik]
      · rw [if_neg hik, if_neg hik,
          List.find?_cons_of_neg _ (by simp; exact fun h => hik (h ▸ hk))]
    · rw [List.filter_cons_of_pos (by simp [hk])]
      by_cases hi : hd.1 = i
      · rw [List.find?_cons_of_pos _ (by simp [hi]),
          if_neg (fun hik => hk (by rw [hi, hik])),
          List.find?_cons_of_pos _ (by simp [hi])]
      · rw [List.find?_cons_of_neg _ (by simp [hi]), ih,
          List.find?_cons_of_neg _ (by simp [hi])]

/-! ### Claim theorems -/

/-- C9: `remove_task` deletes solely by the identifier component of its
`KeyedTask` argument: lookups at the `KeyedTask`'s id become absent no matter
which `Task` value the `KeyedTask` carries (the right-hand side does not
mention `kt.task`), and lookups at every other identifier are unchanged. -/
theorem remove_task_by_id_only (tr : MapTaskRepository) (kt : KeyedTask) (i : Uuid) :
    get_task (remove_task tr kt) i = if i = kt.id then none else get_task tr i := by
  unfold get_task remove_task
  rw [find?_filter_ne_key]
  split <;> rfl

/-- C5: for every repository and every `KeyedTask` held in it, after
`remove_task` the subsequent `get_task` at that `KeyedTask`'s identifier
returns `none`. -/
theorem remove_then_get_absent (tr : MapTaskRepository) (kt : KeyedTask)
    (hmem : kt ∈ get_all tr) :
    get_task (remove_task tr kt) kt.id = none := by
  unfold get_task remove_task
  rw [find?_filter_ne_key]
  simp

/-- Witness for C5 at a concrete one-task repository. -/
theorem remove_then_get_absent_witness :
    (⟨0, ⟨"a", Priority.High⟩⟩ : KeyedTask)
        ∈ get_all (add_task MapTaskRepository.new ⟨"a", Priority.High⟩).2
    ∧ get_task
        (remove_task (add_task MapTaskRepository.new ⟨"a", Priority.High⟩).2
          ⟨0, ⟨"a", Priority.High⟩⟩)
        (0 : Uuid) = none :=
  ⟨List.mem_singleton_self _,
   remove_then_get_absent _ _ (List.mem_singleton_self _)⟩

/-- C2: when the incoming state carries a pending `Remove` action together
with a pending task, `execute_action` first removes that task from the store
and clears both pending fields, and only then dispatches the newly chosen
action `a`, whatever it is: the run is equal to dispatching `a` against the
store with the pending task removed, from a state with both fields `none`. -/
theorem pending_remove_committed_first (a : Action) (env : Env)
    (tr : MapTaskRepository) (sc : Bool) (kt : KeyedTask) :
    execute_action a env tr ⟨sc, some kt, some Action.Remove⟩
      = execute_action a env (remove_task tr kt) ⟨sc, none, none⟩ := rfl

/-- C3: the sequence printed by the List action is a permutation of the
store's contents in which priority ranks are non-decreasing at every pair of
positions: every High-priority task comes before every Medium-priority task,
and every Medium before every Low, for any store contents and any insertion
order. -/
theorem list_tasks_sorted_by_priority (tr : MapTaskRepository) :
    (list_tasks tr).Perm (get_all tr)
    ∧ List.Pairwise
        (fun a b => priorityOrder a.task.priority ≤ priorityOrder b.task.priority)
        (list_tasks tr) :=
  ⟨List.perm_insertionSort prioLe _, List.sorted_insertionSort prioLe _⟩

/-- C8: from any state with `should_continue = true`, `execute_action`
returns a state with `should_continue = false` exactly when the dispatched
action is `Quit`; every other action (List, Add, Remove, Unknown) leaves
`should_continue = true`. -/
theorem quit_iff_stop (a : Action) (env : Env) (tr : MapTaskRepository)
    (s : State) (h : s.should_continue = true) :
    (execute_action a env tr s).2.should_continue = false ↔ a = Action.Quit := by
  cases a <;> simp [execute_action, h]

/-- Witness for C8 at concrete inputs: `Quit` stops the loop. -/
theorem quit_iff_stop_witness :
    (State.mk true none none).should_continue = true
    ∧ ((execute_action Action.Quit ⟨none, none⟩ MapTaskRepository.new
          ⟨true, none, none⟩).2.should_continue = false
        ↔ Action.Quit = Action.Quit) :=
  ⟨rfl, quit_iff_stop Action.Quit ⟨none, none⟩ MapTaskRepository.new
    ⟨true, none, none⟩ rfl⟩

/-! ### Freshness of generated identifiers -/

/-- Every key in the repository is below the fresh-identifier supply; this
is the model-level counterpart of "newly generated UUIDs are fresh". -/
def wf (tr : MapTaskRepository) : Prop :=
  ∀ p ∈ tr.tm, p.1 < tr.next

lemma wf_new : wf MapTaskRepository.new := by
  intro p hp
  simp [MapTaskRepository.new] at hp

lemma add_task_tm (tr : MapTaskRepository) (t : Task) (h : wf tr) :
    ((add_task tr t).2).tm = (tr.next, t) :: tr.tm := by
  have hf : tr.tm.filter (fun p => p.1 ≠ tr.next) = tr.tm :=
    List.filter_eq_self.mpr (fun p hp => by simpa using Nat.ne_of_lt (h p hp))
  show (tr.next, t) :: tr.tm.filter (fun p => p.1 ≠ tr.next) = (tr.next, t) :: tr.tm
  rw [hf]

lemma add_task_wf (tr : MapTaskRepository) (t : Task) (h : wf tr) :
    wf (add_task tr t).2 := by
  intro p hp
  rw [add_task_tm tr t h] at hp
  rcases List.mem_cons.mp hp with rfl | hp'
  · exact Nat.lt_succ_self tr.next
  · exact Nat.lt_trans (h p hp') (Nat.lt_succ_self tr.next)

lemma add_task_ids (tr : MapTaskRepository) (t : Task) (h : wf tr) :
    ids (add_task tr t).2 = tr.next :: ids tr := by
  rw [ids, add_task_tm tr t h]
  rfl

lemma add_task_nodup (tr : MapTaskRepository) (t : Task) (h : wf tr)
    (hnd : (ids tr).Nodup) : (ids (add_task tr t).2).Nodup := by
  rw [add_task_ids tr t h]
  refine List.nodup_cons.mpr ⟨fun hmem => ?_, hnd⟩
  obtain ⟨p, hp, hpk⟩ := List.mem_map.mp hmem
  exact absurd (hpk ▸ h p hp) (Nat.lt_irrefl _)

/-- Combined induction on a sequence of `add_task` calls: freshness is
preserved, the map grows by one entry per add, identifiers stay pairwise
distinct, and the stored tasks are a permutation of the added tasks followed
by the previous contents. -/
lemma addLoaded_spec (ts : List Task) :
    ∀ tr : MapTaskRepository, wf tr →
      wf (addLoaded tr ts)
      ∧ (addLoaded tr ts).tm.length = ts.length + tr.tm.length
      ∧ ((ids tr).Nodup → (ids (addLoaded tr ts)).Nodup)
      ∧ ((get_all (addLoaded tr ts)).map KeyedTask.task).Perm
          (ts ++ (get_all tr).map KeyedTask.task) := by
  induction ts with
  | nil =>
    intro tr h
    exact ⟨h, by simp [addLoaded], fun hnd => hnd, by simp [addLoaded]⟩
  | cons t ts ih =>
    intro tr h
    have hstep : addLoaded tr (t :: ts) = addLoaded (add_task tr t).2 ts := rfl
    obtain ⟨ihwf, ihlen, ihnd, ihperm⟩ := ih (add_task tr t).2 (add_task_wf tr t h)
    refine ⟨hstep ▸ ihwf, ?_, ?_, ?_⟩
    · rw [hstep, ihlen, add_task_tm tr t h]
      simp only [List.length_cons]
      omega
    · intro hnd
      exact hstep ▸ ihnd (add_task_nodup tr t h hnd)
    · rw [hstep]
      have hget : (get_all (add_task tr t).2).map KeyedTask.task
          = t :: (get_all tr).map KeyedTask.task := by
        rw [get_all, add_task_tm tr t h]
        rfl
      rw [hget] at ihperm
      exact ihperm.trans List.perm_middle

/-- C4: after any sequence of adds into an initially empty repository,
`get_all` returns exactly as many entries as there were adds, and the
identifiers of those entries are pairwise distinct. -/
theorem add_sequence_length_and_unique_ids (ts : List Task) :
    (get_all (addLoaded MapTaskRepository.new ts)).length = ts.length
    ∧ ((get_all (addLoaded MapTaskRepository.new ts)).map KeyedTask.id).Nodup := by
  obtain ⟨-, hlen, hnd, -⟩ := addLoaded_spec ts MapTaskRepository.new wf_new
  constructor
  · rw [get_all, List.length_map, hlen]
    rfl
  · have hids : (get_all (addLoaded MapTaskRepository.new ts)).map KeyedTask.id
        = ids (addLoaded MapTaskRepository.new ts) := by
      rw [get_all, ids, List.map_map]
      rfl
    rw [hids]
    exact hnd (by simp [ids, MapTaskRepository.new])

/-- C1 counterexample: for the empty store the round trip does not
reproduce the same multiset of tasks — saving the empty store writes an
empty task array, and `load_tasks` then seeds the two default tasks, so the
loaded store holds two tasks where the original held none. -/
theorem roundtrip_fails_on_empty_store :
    ∃ tr', load_tasks (FileReadResult.contents (save_tasks MapTaskRepository.new))
        MapTaskRepository.new = Except.ok tr'
      ∧ ¬ ((get_all tr').map KeyedTask.task).Perm
          ((get_all MapTaskRepository.new).map KeyedTask.task) := by
  refine ⟨seedIfEmpty (addLoaded MapTaskRepository.new []), rfl, fun hp => ?_⟩
  exact absurd hp.length_eq (by decide)

/-- C1 (amended to stores holding at least one task): saving a non-empty
store and loading the saved file into an empty store reproduces a store
whose tasks form the same multiset of (name, priority) pairs; identifiers
are not preserved. -/
theorem roundtrip_preserves_tasks_of_nonempty (tr : MapTaskRepository)
    (h : get_all tr ≠ []) :
    ∃ tr', load_tasks (FileReadResult.contents (save_tasks tr)) MapTaskRepository.new
        = Except.ok tr'
      ∧ ((get_all tr').map KeyedTask.task).Perm ((get_all tr).map KeyedTask.task) := by
  obtain ⟨-, hlen, -, hperm⟩ := addLoaded_spec (save_tasks tr) MapTaskRepository.new wf_new
  have hlen0 : (save_tasks tr).length ≠ 0 := by
    rw [save_tasks, List.length_map]
    exact fun h0 => h (List.eq_nil_of_length_eq_zero h0)
  have hne : ¬ ((get_all (addLoaded MapTaskRepository.new (save_tasks tr))).isEmpty = true) := by
    rw [List.isEmpty_iff, get_all, List.map_eq_nil_iff]
    intro hnil
    rw [hnil] at hlen
    exact hlen0 (by simpa [MapTaskRepository.new] using hlen.symm)
  refine ⟨addLoaded MapTaskRepository.new (save_tasks tr), ?_, ?_⟩
  · show Except.ok (seedIfEmpty (addLoaded MapTaskRepository.new (save_tasks tr))) = _
    rw [seedIfEmpty, if_neg hne]
  · simpa [save_tasks, get_all, MapTaskRepository.new] using hperm

/-- Witness for C1 at a concrete one-task store. -/
theorem roundtrip_preserves_tasks_of_nonempty_witness :
    get_all (add_task MapTaskRepository.new ⟨"a", Priority.High⟩).2 ≠ []
    ∧ ∃ tr', load_tasks
          (FileReadResult.contents
            (save_tasks (add_task MapTaskRepository.new ⟨"a", Priority.High⟩).2))
          MapTaskRepository.new = Except.ok tr'
      ∧ ((get_all tr').map KeyedTask.task).Perm
          ((get_all (add_task MapTaskRepository.new ⟨"a", Priority.High⟩).2).map
            KeyedTask.task) :=
  ⟨List.cons_ne_nil _ _,
   roundtrip_preserves_tasks_of_nonempty _ (List.cons_ne_nil _ _)⟩

/-- C6: when the loaded task sequence is empty — both when the persistence
file is missing and when it parses to an empty array — `load_tasks` on the
fresh store succeeds and seeds exactly the two fixed default tasks
("Learn Rust"/High and "Learn NeoVim"/Medium) and nothing else. -/
theorem load_seeds_defaults_when_empty :
    (∃ tr, load_tasks FileReadResult.missing MapTaskRepository.new = Except.ok tr
      ∧ ((get_all tr).map (fun kt => (kt.task.name, kt.task.priority))).Perm
          [("Learn Rust", Priority.High), ("Learn NeoVim", Priority.Medium)])
    ∧ (∃ tr, load_tasks (FileReadResult.contents []) MapTaskRepository.new = Except.ok tr
      ∧ ((get_all tr).map (fun kt => (kt.task.name, kt.task.priority))).Perm
          [("Learn Rust", Priority.High), ("Learn NeoVim", Priority.Medium)]) :=
  ⟨⟨_, rfl, by decide⟩, ⟨_, rfl, by decide⟩⟩

/-- C7: a missing/unreadable task file is not an error — `load_tasks`
behaves exactly as on an empty task array and succeeds — while malformed
content makes `load_tasks` return an error which `main` propagates
unchanged, independently of any interactive input, i.e. the program
terminates before the action loop runs. -/
theorem load_error_handling :
    (∀ tr, load_tasks FileReadResult.missing tr
        = load_tasks (FileReadResult.contents []) tr)
    ∧ (∀ tr, ∃ tr', load_tasks FileReadResult.missing tr = Except.ok tr')
    ∧ (∀ tr, load_tasks FileReadResult.malformed tr = Except.error "malformed JSON")
    ∧ (∀ inputs, main FileReadResult.malformed inputs = Except.error "malformed JSON") :=
  ⟨fun _ => rfl, fun _ => ⟨_, rfl⟩, fun _ => rfl, fun _ => rfl⟩

/-- From a state whose pending fields are (`none`, `some Remove`) the store
evolves over any sequence of further cycles exactly as from a state with no
pending fields at all: the dangling `Remove` marker never triggers a
removal. -/
lemma run_pending_remove_without_task (trace : List (Action × Env)) :
    ∀ (tr : MapTaskRepository) (sc : Bool),
      (run trace tr ⟨sc, none, some Action.Remove⟩).1
        = (run trace tr ⟨sc, none, none⟩).1 := by
  induction trace with
  | nil => intro tr sc; rfl
  | cons c rest ih =>
    obtain ⟨a, env⟩ := c
    intro tr sc
    cases sc
    · rfl
    · cases a with
      | Quit => simpa [run, execute_action] using ih tr false
      | List => simpa [run, execute_action] using ih tr true
      | Add => simpa [run, execute_action] using ih (add_task_prompt env tr) true
      | Remove => simp [run, execute_action]
      | Unknown m => simpa [run, execute_action] using ih tr true

/-- C10: a cancelled or failed selection in the Remove branch leaves the
store untouched and the state with `pendingAction = some Remove` but
`pendingTask = none`, and such a state never causes a removal on any later
cycle: over every subsequent trace the store evolves exactly as it would
from a state with no pending fields, because the pending-commit step fires
only when the pending `Remove` and a pending task are present together. -/
theorem cancelled_remove_selection_harmless (env : Env) (tr : MapTaskRepository)
    (sc : Bool) (trace : List (Action × Env))
    (hsel : select_task env tr = none) :
    execute_action Action.Remove env tr ⟨sc, none, none⟩
      = (tr, ⟨sc, none, some Action.Remove⟩)
    ∧ (run trace tr ⟨sc, none, some Action.Remove⟩).1
      = (run trace tr ⟨sc, none, none⟩).1 := by
  refine ⟨?_, run_pending_remove_without_task trace tr sc⟩
  show (tr, State.mk sc (select_task env tr) (some Action.Remove))
      = (tr, State.mk sc none (some Action.Remove))
  rw [hsel]

/-- Witness for C10 at concrete inputs: a failed selection on the empty
store, followed by one List cycle. -/
theorem cancelled_remove_selection_harmless_witness :
    select_task ⟨none, none⟩ MapTaskRepository.new = none
    ∧ (execute_action Action.Remove ⟨none, none⟩ MapTaskRepository.new
        ⟨true, none, none⟩ = (MapTaskRepository.new, ⟨true, none, some Action.Remove⟩)
      ∧ (run [(Action.List, ⟨none, none⟩)] MapTaskRepository.new
            ⟨true, none, some Action.Remove⟩).1
        = (run [(Action.List, ⟨none, none⟩)] MapTaskRepository.new
            ⟨true, none, none⟩).1) :=
  ⟨rfl, cancelled_remove_selection_harmless ⟨none, none⟩ MapTaskRepository.new
    true [(Action.List, ⟨none, none⟩)] rfl⟩

end Todo
